import Mathlib

/-!
Verification development for the RBAC authorization and organization-scoping
engine of the task-management backend.

The definitions below are shallow embeddings of the JavaScript source:

* `packages/backend/lib/rbac.js` — static role/permission catalog
  (`normalizeRole`, `getInheritedRoles`, `roleAllows`), organization scope
  resolution (`buildOrgIndex`, `collectDescendants`, `resolveOrgScopeForUser`).
* `packages/backend/lib/database.js` — dynamic permission store
  (`hasRolePermission`, `setRolePermission`), category access
  (`listCategoryRoleAccess`, `setCategoryRoleAccess`,
  `listAccessibleCategoriesForRole`), and the role lifecycle
  (`getRoleByName`, `updateRole`, `deleteRole`).
* `packages/backend/lib/auth.js` — the static-only route guard
  (`createPermissionGuard`).
* the task router — its per-route `guard` (static OR dynamic) and the
  task-listing filter pipeline.
* the admin router — its `admin:access` gate.

SQLite tables are modelled as Lean lists of row structures, in table order
(SQLite scan order for unindexed reads); SQL `UPDATE`/`DELETE`/`INSERT`
become pure list transformations, and `withTransaction` becomes an
`Except`-valued function: an error result leaves the caller with the
unchanged pre-state, which is exactly the all-or-nothing rollback
semantics of the source's BEGIN/COMMIT/ROLLBACK wrapper.
-/

namespace Rbac

/-- Row of the `role_permissions` table: columns
`id, organization_id, role, permission, enabled` (enabled stored 0/1,
modelled as `Bool`; every write site stores `enabled ? 1 : 0`). -/
structure PermRow where
  id : String
  organizationId : Option String
  role : String
  permission : String
  enabled : Bool
  deriving Repr, DecidableEq

/-- The `role_permissions` table, in row (scan) order. -/
abbrev PermStore := List PermRow

/-- Row of the `organizations` table (columns used by the scope resolver). -/
structure Org where
  id : String
  name : String
  parent_id : Option String
  deriving Repr, DecidableEq

/-- Authenticated user record (columns of `users` used by the engine;
password, email, welcome columns are never read by it). -/
structure User where
  id : String
  role : String
  organization_id : String
  deriving Repr, DecidableEq

/-- Role catalog row (`roles` table: `id, name, description, is_system`). -/
structure RoleRow where
  id : String
  name : String
  description : Option String
  isSystem : Bool
  deriving Repr, DecidableEq

/-- Category row as projected by the category queries
(`id, organization_id AS organizationId, name, is_system AS isSystem`). -/
structure Category where
  id : String
  organizationId : String
  name : String
  isSystem : Bool
  deriving Repr, DecidableEq

/-- Row of the `category_role_access` table (`id, category_id, role`). -/
structure AccessRow where
  id : String
  categoryId : String
  role : String
  deriving Repr, DecidableEq

/-- Task row as projected by `taskSelectAllColumns` (fields not consulted by
the visibility rules — title, description, priority, dates — are omitted;
`created_by` is nullable via ON DELETE SET NULL, hence `Option`). -/
structure Task where
  id : String
  organizationId : String
  category : String
  createdBy : Option String
  deriving Repr, DecidableEq

/-! ## Static catalog: rbac.js -/

/-- Whitespace test used by the embedding of `String.prototype.trim`:
space, tab, LF, VT, FF, CR (the ASCII whitespace JS trims; the role and
permission strings of this system are ASCII). -/
def isWsChar (c : Char) : Bool :=
  c.toNat = 32 || (9 ≤ c.toNat && c.toNat ≤ 13)

/-- Embedding of `String.prototype.trim`: strip leading and trailing
whitespace. -/
def jsTrim (s : String) : String :=
  String.mk (((s.data.dropWhile isWsChar).reverse.dropWhile isWsChar).reverse)

/-- ASCII lowercase of one character (A-Z mapped to a-z), as both
`String.prototype.toLowerCase` and SQLite `LOWER` act on the ASCII names
this system stores. -/
def lowerChar (c : Char) : Char :=
  if 65 ≤ c.toNat && c.toNat ≤ 90 then Char.ofNat (c.toNat + 32) else c

/-- Embedding of `String.prototype.toLowerCase` on ASCII strings. -/
def jsToLower (s : String) : String :=
  String.mk (s.data.map lowerChar)

/-- Embedding of `normalizeRole` (rbac.js): trim then lowercase. -/
def normalizeRole (role : String) : String :=
  jsToLower (jsTrim role)

/-- Embedding of `ROLE_HIERARCHY` / `getInheritedRoles` (rbac.js):
`ROLE_HIERARCHY[normalized] || []`. -/
def getInheritedRoles (role : String) : List String :=
  let n := normalizeRole role
  if n = "owner" then ["owner", "admin", "viewer"]
  else if n = "admin" then ["admin", "viewer"]
  else if n = "viewer" then ["viewer"]
  else []

/-- Embedding of the `PERMISSIONS` static table (rbac.js): permission key to
the list of system roles statically entitled; `none` for unknown keys. -/
def permissionRoles (permission : String) : Option (List String) :=
  if permission = "tasks:view" then some ["owner", "admin", "viewer"]
  else if permission = "tasks:create" then some ["owner", "admin"]
  else if permission = "tasks:update" then some ["owner", "admin"]
  else if permission = "tasks:delete" then some ["owner"]
  else if permission = "audit:view" then some ["owner", "admin"]
  else if permission = "users:view-all" then some ["owner", "admin"]
  else if permission = "categories:manage" then some ["owner", "admin"]
  else if permission = "categories:create" then some ["owner", "admin"]
  else if permission = "categories:update" then some ["owner", "admin"]
  else if permission = "categories:delete" then some ["owner", "admin"]
  else if permission = "categories:access:configure" then some ["owner"]
  else if permission = "categories:view" then some ["owner", "admin", "viewer"]
  else if permission = "roles:view" then some ["owner", "admin"]
  else if permission = "roles:create" then some ["owner", "admin"]
  else if permission = "roles:update" then some ["owner", "admin"]
  else if permission = "roles:delete" then some ["owner"]
  else none

/-- Embedding of `roleAllows` (rbac.js): unknown permission fails closed;
otherwise true iff some inherited role is in the permission's entitled
set. -/
def roleAllows (role permission : String) : Bool :=
  match permissionRoles permission with
  | none => false
  | some allowed => (getInheritedRoles role).any (fun c => allowed.contains c)

/-! ## Organization scope resolution: rbac.js -/

/-- Key used by `buildOrgIndex` for the children map:
`org.parent_id || null` (an empty string is falsy in JS and keys as null). -/
def childKeyOf (o : Org) : Option String :=
  match o.parent_id with
  | none => none
  | some s => if s = "" then none else some s

/-- Ids of the child organizations of `current` per the `buildOrgIndex`
children map (list order preserved). -/
def childIdsOf (organizations : List Org) (current : String) : List String :=
  (organizations.filter (fun o => childKeyOf o = some current)).map (fun o => o.id)

/-- Embedding of the `while (queue.length)` loop of `collectDescendants`
(rbac.js): pop the head, skip falsy or already-visited ids, otherwise add to
the accumulator and push the children. JS mutates a `Set`; visited order is
kept as a list. The explicit fuel only bounds iteration count; it is chosen
large enough in `collectDescendants` that the loop always runs to queue
exhaustion. -/
def collectDescendantsGo (organizations : List Org) :
    Nat → List String → List String → List String
  | 0, _, acc => acc
  | _ + 1, [], acc => acc
  | fuel + 1, current :: queue, acc =>
    if current = "" || acc.contains current then
      collectDescendantsGo organizations fuel queue acc
    else
      collectDescendantsGo organizations fuel
        (queue ++ childIdsOf organizations current) (acc ++ [current])

/-- Embedding of `collectDescendants(id, childrenMap, acc)` (rbac.js).
Each loop iteration pops one queue element, and ids are pushed only when an
id is newly visited (at most `organizations.length + 1` times, each pushing
at most `organizations.length` children), so the fuel below strictly
exceeds the number of iterations the JS loop can perform. -/
def collectDescendants (organizations : List Org) (id : String)
    (acc : List String) : List String :=
  collectDescendantsGo organizations
    ((organizations.length + 1) * (organizations.length + 1) + 1) [id] acc

/-- Set-style add on the insertion-ordered list modelling a JS `Set`. -/
def addToSet (s : List String) (x : String) : List String :=
  if s.contains x then s else s ++ [x]

/-- Embedding of `resolveOrgScopeForUser(user, organizations)` (rbac.js).
`user.organization_id || user.organizationId` is falsy only for the empty
string here, returning the empty scope; `isRoot` is
`!orgRecord || !orgRecord.parent_id`. -/
def resolveOrgScopeForUser (user : User) (organizations : List Org) :
    List String :=
  if user.organization_id = "" then []
  else
    let scope := [user.organization_id]
    let normalizedRole := normalizeRole user.role
    let orgRecord := organizations.find? (fun o => o.id = user.organization_id)
    let isRoot := match orgRecord with
      | none => true
      | some o => childKeyOf o = none
    if normalizedRole = "owner" then
      organizations.foldl (fun s o => addToSet s o.id) scope
    else if normalizedRole = "admin" && isRoot then
      collectDescendants organizations user.organization_id scope
    else scope

/-! ## Dynamic permission store: database.js -/

/-- WHERE clause of the `hasRolePermission` query restricted to global rows:
`organization_id IS NULL AND role = ? AND permission = ?`. -/
def matchesGlobal (r : PermRow) (role permission : String) : Bool :=
  r.organizationId.isNone && r.role = role && r.permission = permission

/-- WHERE clause of the `hasRolePermission` query restricted to rows of one
organization: `organization_id = ? AND role = ? AND permission = ?` (SQL
`organization_id = NULL` is never true, so a null argument matches no row
here). -/
def matchesOrg (r : PermRow) (oid role permission : String) : Bool :=
  r.organizationId = some oid && r.role = role && r.permission = permission

/-- Embedding of `hasRolePermission(db, { organizationId, role, permission })`
(database.js): `SELECT enabled ... WHERE (organization_id IS NULL OR
organization_id = ?) AND role = ? AND permission = ? ORDER BY
organization_id IS NULL DESC LIMIT 1`, then `Boolean(row && row.enabled
=== 1)`. With `DESC` on the boolean sort key, rows whose
`organization_id IS NULL` (value 1) sort before organization-specific rows
(value 0), so the global row is consulted first; ties keep scan order. -/
def hasRolePermission (store : PermStore) (organizationId : Option String)
    (role permission : String) : Bool :=
  match (store.filter (fun r => matchesGlobal r role permission) ++
    (match organizationId with
     | none => []
     | some oid => store.filter (fun r => matchesOrg r oid role permission))).head? with
  | some row => row.enabled
  | none => false

/-- WHERE clause of the upsert lookup in `setRolePermission` (database.js):
`organization_id IS NULL` when the argument is null, else
`organization_id = ?`, plus exact role and permission match. -/
def scopeMatches (r : PermRow) (organizationId : Option String)
    (role permission : String) : Bool :=
  (match organizationId with
   | none => r.organizationId.isNone
   | some oid => r.organizationId = some oid)
  && r.role = role && r.permission = permission

/-- Embedding of `setRolePermission(db, { organizationId, role, permission,
enabled })` (database.js): inside one transaction, SELECT the existing row
for the exact scope key; if found, UPDATE its `enabled` by primary key,
else INSERT a fresh row (`newId` stands for the generated uuid). -/
def setRolePermission (store : PermStore) (newId : String)
    (organizationId : Option String) (role permission : String)
    (enabled : Bool) : PermStore :=
  match store.find? (fun r => scopeMatches r organizationId role permission) with
  | some existing =>
    store.map (fun r => if r.id = existing.id then { r with enabled := enabled } else r)
  | none =>
    store ++ [{ id := newId, organizationId := organizationId, role := role,
                permission := permission, enabled := enabled }]

/-! ## Category access: database.js -/

/-- Code-point-wise list comparison underlying the embedding of SQL
`ORDER BY ... ASC` on TEXT columns: SQLite's default BINARY collation
compares UTF-8 bytes, which orders strings exactly by code point. -/
def charListLe : List Char → List Char → Bool
  | [], _ => true
  | _ :: _, [] => false
  | a :: as, b :: bs =>
    if a.toNat < b.toNat then true
    else if b.toNat < a.toNat then false
    else charListLe as bs

/-- SQL BINARY-collation ascending comparison on strings. -/
def strLe (a b : String) : Bool :=
  charListLe a.data b.data

/-- Embedding of `listCategoryRoleAccess(db, categoryId)` (database.js):
`SELECT role FROM category_role_access WHERE category_id = ? ORDER BY role
ASC` mapped to the role strings. -/
def listCategoryRoleAccess (access : List AccessRow) (categoryId : String) :
    List String :=
  List.insertionSort (fun a b => strLe a b = true)
    ((access.filter (fun a => a.categoryId = categoryId)).map (fun a => a.role))

/-- Normalization pipeline of `setCategoryRoleAccess` (database.js):
`Array.from(new Set((roles || []).map(r => String(r).trim().toLowerCase())
.filter(Boolean)))` — trim, lowercase, drop empties, dedup keeping first
occurrences in order. -/
def uniqueRolesOf (roles : List String) : List String :=
  ((roles.map (fun r => jsToLower (jsTrim r))).filter (fun r => r ≠ "")).foldl
    (fun acc r => if acc.contains r then acc else acc ++ [r]) []

/-- Embedding of `setCategoryRoleAccess(db, categoryId, roles)`
(database.js): inside one transaction, DELETE every access row of the
category, INSERT one row per normalized unique role (`idGen i` stands for
the i-th generated uuid), and return `listCategoryRoleAccess` of the new
state. Result: the new table state and the returned role list. -/
def setCategoryRoleAccess (access : List AccessRow) (idGen : Nat → String)
    (categoryId : String) (roles : List String) :
    List AccessRow × List String :=
  let uniqueRoles := uniqueRolesOf roles
  let kept := access.filter (fun a => a.categoryId ≠ categoryId)
  let inserted := (uniqueRoles.enum.map
    (fun p => { id := idGen p.1, categoryId := categoryId, role := p.2 : AccessRow }))
  let newAccess := kept ++ inserted
  (newAccess, listCategoryRoleAccess newAccess categoryId)

/-- Membership condition of the `listAccessibleCategoriesForRole` query for
one category row `c`: `(counts.cnt IS NULL AND c.is_system = 1) OR cra.role
IS NOT NULL`, i.e. either no access row exists for the category and it is a
system category, or an access row for the queried role exists (the
`UNIQUE(category_id, role)` constraint makes the LEFT JOIN on `cra`
row-preserving). -/
def categoryVisibleToRole (access : List AccessRow) (role : String)
    (c : Category) : Bool :=
  ((access.filter (fun a => a.categoryId = c.id)).isEmpty && c.isSystem)
  || access.any (fun a => a.categoryId = c.id && a.role = role)

/-- Embedding of `listAccessibleCategoriesForRole(db, orgIds, role)`
(database.js): empty org-id list short-circuits to `[]`; otherwise the
categories whose `organization_id IN (orgIds)` and which satisfy
`categoryVisibleToRole`, ordered by `c.name ASC`. -/
def listAccessibleCategoriesForRole (categories : List Category)
    (access : List AccessRow) (orgIds : List String) (role : String) :
    List Category :=
  if orgIds.isEmpty then []
  else
    List.insertionSort (fun a b => strLe a.name b.name = true)
      (categories.filter (fun c =>
        orgIds.contains c.organizationId && categoryVisibleToRole access role c))

/-! ## Role lifecycle: database.js -/

/-- Database state touched by the role lifecycle operations: the `roles`
catalog, the `users` table and the `role_permissions` table. -/
structure DbState where
  roles : List RoleRow
  users : List User
  perms : PermStore
  deriving Repr

/-- Embedding of `getRoleByName(db, name)` (database.js):
`SELECT ... FROM roles WHERE LOWER(name) = LOWER(?)` — first matching row
in scan order (SQLite `LOWER` and Lean `String.toLower` agree on the ASCII
names this system stores). -/
def getRoleByName (roles : List RoleRow) (name : String) : Option RoleRow :=
  roles.find? (fun r => jsToLower r.name = jsToLower name)

/-- Error taxonomy raised by the role lifecycle functions: `notFound` for a
missing catalog row, `systemRole` for the immutability guard (message
"Cannot modify/delete system role"), `roleInUse` for the distinct
`err.code = ROLE_IN_USE` signal, `uniqueViolation` for a UNIQUE-constraint
failure propagated out of the transaction. -/
inductive RoleError where
  | notFound
  | systemRole
  | roleInUse
  | uniqueViolation
  deriving Repr, DecidableEq

/-- Embedding of `updateRole(db, oldName, { name, description })`
(database.js). `nameArg = none` models a null/undefined `name`;
`descArg = none` models an undefined `description` (skipping the
description UPDATE), `some d` a provided one (`d = none` stored as NULL via
`description || null`). On rename, one transaction updates the catalog row,
every user row holding the old name and every permission row holding the
old name; the `roles.name` UNIQUE constraint aborts the transaction (error
result = rollback, no state change). UNIQUE collisions among org-scoped
permission rows are not modelled: every row this application creates has
`organization_id` NULL, and SQLite's UNIQUE treats NULLs as distinct, so
those updates cannot conflict. -/
def updateRole (s : DbState) (oldName : String) (nameArg : Option String)
    (descArg : Option (Option String)) : Except RoleError (DbState × Option RoleRow) :=
  match getRoleByName s.roles oldName with
  | none => .error .notFound
  | some existing =>
    if existing.isSystem then .error .systemRole
    else
      let newName : Option String := nameArg.map (fun n => jsToLower (jsTrim n))
      let doRename := match newName with
        | some n => n ≠ "" && n ≠ existing.name
        | none => false
      match newName, doRename with
      | some n, true =>
        if s.roles.any (fun r => r.id ≠ existing.id && r.name = n) then
          .error .uniqueViolation
        else
          let roles1 := s.roles.map (fun r =>
            if r.id = existing.id then { r with name := n } else r)
          let users1 := s.users.map (fun u =>
            if u.role = existing.name then { u with role := n } else u)
          let perms1 := s.perms.map (fun p =>
            if p.role = existing.name then { p with role := n } else p)
          let roles2 := match descArg with
            | none => roles1
            | some d => roles1.map (fun r =>
                if r.id = existing.id then { r with description := d } else r)
          let s1 : DbState := { roles := roles2, users := users1, perms := perms1 }
          .ok (s1, getRoleByName s1.roles n)
      | _, _ =>
        let roles2 := match descArg with
          | none => s.roles
          | some d => s.roles.map (fun r =>
              if r.id = existing.id then { r with description := d } else r)
        let s1 : DbState := { s with roles := roles2 }
        .ok (s1, getRoleByName s1.roles existing.name)

/-- Embedding of `deleteRole(db, name)` (database.js): not-found and
system-role guards, then the usage count over `users.role = existing.name`;
`ROLE_IN_USE` is raised before any write. On success one transaction
deletes the role's permission rows and its catalog row. -/
def deleteRole (s : DbState) (name : String) : Except RoleError DbState :=
  match getRoleByName s.roles name with
  | none => .error .notFound
  | some existing =>
    if existing.isSystem then .error .systemRole
    else if 0 < (s.users.filter (fun u => u.role = existing.name)).length then
      .error .roleInUse
    else
      .ok { s with
        perms := s.perms.filter (fun p => p.role ≠ existing.name),
        roles := s.roles.filter (fun r => r.id ≠ existing.id) }

/-! ## Route guards: lib/auth.js, task router, admin router

The guards below are modelled for an authenticated request (`req.auth.user`
present); the 401 unauthenticated branch precedes every permission decision
and is orthogonal to the claims. -/

/-- Allow/deny outcome of a permission guard (HTTP `next()` vs 403). -/
inductive Decision where
  | allow
  | deny
  deriving Repr, DecidableEq

/-- Embedding of `createPermissionGuard(permission)` (lib/auth.js), the guard
installed on the category mutation routes: it consults only the static
catalog — `if (!roleAllows(user.role, permission)) 403; next()` — and never
reads the dynamic permission store. -/
def permissionGuard (role permission : String) : Decision :=
  if roleAllows role permission then .allow else .deny

/-- Embedding of the task router's `guard(permission)` middleware:
owner short-circuit on the exact string, then
`roleAllows(user.role, permission) || await
dbApi.hasRolePermission({ organizationId: null, role: user.role,
permission })`. -/
def taskGuard (store : PermStore) (role permission : String) : Decision :=
  if role = "owner" then .allow
  else if roleAllows role permission || hasRolePermission store none role permission then .allow
  else .deny

/-- Embedding of the admin router's access gate: owners always pass, every
other role requires the dynamic global `admin:access` permission. -/
def adminAccessGuard (store : PermStore) (role : String) : Decision :=
  if role = "owner" then .allow
  else if hasRolePermission store none role ("admin:access") then .allow
  else .deny

/-! ## Task listing: task router GET / handler -/

/-- Embedding of the visibility pipeline of the task router's GET handler,
applied to the rows `dbApi.listTasksForOrganizations(orgScope, filters)`
returned (passed in as `tasks`): first the hard-coded Personal rule
(`t.category === Personal` keeps the task only when `t.createdBy ===
user.id`), then, for every non-owner role, the category-access restriction
keeping Personal tasks and tasks whose category name is in
`listAccessibleCategoriesForRole(orgScope, user.role)`. -/
def listTasksVisible (categories : List Category) (access : List AccessRow)
    (user : User) (orgScope : List String) (tasks : List Task) : List Task :=
  let afterPersonal := tasks.filter (fun t =>
    if t.category = "Personal" then t.createdBy = some user.id else true)
  if user.role ≠ "owner" then
    let allowedCategoryNames :=
      (listAccessibleCategoriesForRole categories access orgScope user.role).map
        (fun c => c.name)
    afterPersonal.filter (fun t =>
      t.category = "Personal" || allowedCategoryNames.contains t.category)
  else afterPersonal

/-! ## General helper lemmas -/

/-- A find? over a list is the head of its filter. -/
theorem find?_eq_filter_head? {α : Type _} (p : α → Bool) (l : List α) :
    l.find? p = (l.filter p).head? := by
  induction l with
  | nil => rfl
  | cons x xs ih =>
    by_cases h : p x
    · rw [List.find?_cons_of_pos _ h, List.filter_cons_of_pos h]
      rfl
    · rw [List.find?_cons_of_neg _ h, List.filter_cons_of_neg h, ih]

/-- Filtering after a map that does not change the filtered predicate
commutes with the map. -/
theorem filter_map_invariant {α : Type _} (p : α → Bool) (f : α → α)
    (h : ∀ x, p (f x) = p x) (l : List α) :
    (l.map f).filter p = (l.filter p).map f := by
  rw [List.filter_map]
  congr 1
  apply List.filter_congr
  intro x _
  exact h x

/-! ## Claim theorems -/

/-- Permission store holding exactly one row: a global dynamic grant of
`categories:create` to the custom role `editor` (no static catalog
entitlement exists for `editor`). -/
def dynamicOnlyStore : PermStore :=
  [{ id := "rp-editor", organizationId := none, role := "editor",
     permission := "categories:create", enabled := true }]

/-- C1, counterexample. The claim states that the static-OR-dynamic
combinator guards every protected route, category routes included, so a
custom role with only a dynamic grant passes every route guarded by that
permission. On the code this fails: `editor` holds a (global, dynamic)
grant of `categories:create`, the task router's combinator admits it, but
the category routes are guarded by `createPermissionGuard`, which consults
only the static catalog and denies. -/
theorem claim1_counterexample :
    hasRolePermission dynamicOnlyStore none ("editor") ("categories:create") = true ∧
    taskGuard dynamicOnlyStore ("editor") ("categories:create") = Decision.allow ∧
    permissionGuard ("editor") ("categories:create") = Decision.deny :=
  ⟨by decide, by decide, by decide⟩

/-- C1, amended. For every authenticated non-owner user, the task router's
guard allows exactly when `roleAllows` (static) or `hasRolePermission`
(dynamic, global scope) holds; the category routes, however, use the
static-only `createPermissionGuard`, which allows exactly when `roleAllows`
holds and ignores dynamic grants. -/
theorem claim1_guard_combinators (store : PermStore) (role permission : String)
    (h : role ≠ "owner") :
    (taskGuard store role permission = Decision.allow ↔
      (roleAllows role permission = true ∨
        hasRolePermission store none role permission = true)) ∧
    (permissionGuard role permission = Decision.allow ↔
      roleAllows role permission = true) := by
  constructor
  · rw [taskGuard]
    by_cases hs : roleAllows role permission <;>
      by_cases hd : hasRolePermission store none role permission <;>
        simp [h, hs, hd]
  · rw [permissionGuard]
    by_cases hs : roleAllows role permission <;> simp [hs]

/-- C1, witness for the amended theorem at role `viewer`, permission
`tasks:view`, empty store. -/
theorem claim1_guard_combinators_witness :
    ("viewer" : String) ≠ "owner" ∧
    ((taskGuard [] ("viewer") ("tasks:view") = Decision.allow ↔
      (roleAllows ("viewer") ("tasks:view") = true ∨
        hasRolePermission [] none ("viewer") ("tasks:view") = true)) ∧
    (permissionGuard ("viewer") ("tasks:view") = Decision.allow ↔
      roleAllows ("viewer") ("tasks:view") = true)) :=
  ⟨by decide, claim1_guard_combinators [] ("viewer") ("tasks:view") (by decide)⟩

/-- Permission store holding a global row (enabled = false) and an
organization-specific row (enabled = true) for the same role and
permission. -/
def bothScopesStore : PermStore :=
  [{ id := "rp1", organizationId := none, role := "editor",
     permission := "tasks:view", enabled := false },
   { id := "rp2", organizationId := some ("org1"), role := "editor",
     permission := "tasks:view", enabled := true }]

/-- C2, counterexample. The claim states that when both an
organization-specific and a global row exist, `hasRolePermission` called
with that organization returns the organization-specific row's enabled
value. On the code the query orders by `organization_id IS NULL DESC LIMIT
1`, which sorts the global row first: here the organization-specific row
has enabled = true, yet the result is the global row's false. -/
theorem claim2_counterexample :
    (bothScopesStore.filter
      (fun r => matchesOrg r ("org1") ("editor") ("tasks:view"))).map
        (fun r => r.enabled) = [true] ∧
    hasRolePermission bothScopesStore (some ("org1")) ("editor") ("tasks:view") = false :=
  ⟨by decide, by decide⟩

/-- C2, amended. When a global row and an organization-specific row both
exist for (role, permission), `hasRolePermission` with that organization
returns the global row's enabled value (the global row is preferred); when
no row matches the query, the result is false. -/
theorem claim2_global_row_preferred :
    (∀ (store : PermStore) (oid role permission : String) (g o : PermRow),
      store.filter (fun r => matchesGlobal r role permission) = [g] →
      store.filter (fun r => matchesOrg r oid role permission) = [o] →
      hasRolePermission store (some oid) role permission = g.enabled) ∧
    (∀ (store : PermStore) (oid role permission : String),
      store.filter (fun r => matchesGlobal r role permission) = [] →
      store.filter (fun r => matchesOrg r oid role permission) = [] →
      hasRolePermission store (some oid) role permission = false) := by
  constructor
  · intro store oid role permission g o hg ho
    rw [hasRolePermission, hg, ho]
    rfl
  · intro store oid role permission hg ho
    rw [hasRolePermission, hg, ho]
    rfl

/-- C2, witness for the amended theorem: the preference conjunct at
`bothScopesStore` and the default-false conjunct at the empty store. -/
theorem claim2_global_row_preferred_witness :
    (bothScopesStore.filter
      (fun r => matchesGlobal r ("editor") ("tasks:view")) =
        [{ id := "rp1", organizationId := none, role := "editor",
           permission := "tasks:view", enabled := false }] ∧
     hasRolePermission bothScopesStore (some ("org1")) ("editor") ("tasks:view") = false) ∧
    hasRolePermission [] (some ("org1")) ("editor") ("tasks:view") = false := by
  refine ⟨⟨by decide, ?_⟩, ?_⟩
  · have h := claim2_global_row_preferred.1 bothScopesStore ("org1") ("editor")
      ("tasks:view")
      { id := "rp1", organizationId := none, role := "editor",
        permission := "tasks:view", enabled := false }
      { id := "rp2", organizationId := some ("org1"), role := "editor",
        permission := "tasks:view", enabled := true }
      (by decide) (by decide)
    exact h
  · exact claim2_global_row_preferred.2 [] ("org1") ("editor") ("tasks:view")
      (by decide) (by decide)

/-- Two-organization tree: a root and one child. -/
def rootChildOrgs : List Org :=
  [{ id := "org-root", name := "Root", parent_id := none },
   { id := "org-child", name := "Child", parent_id := some ("org-root") }]

/-- An admin whose organization is the root of `rootChildOrgs`. -/
def rootAdminUser : User :=
  { id := "u-admin", role := "admin", organization_id := "org-root" }

/-- C3, evaluation at the failing input. The claim (and the spec's scope
algorithm) requires an admin of a root organization to receive the root
plus all transitive descendants. The code adds the user's organization to
the scope set before invoking `collectDescendants`, whose visited-set guard
then skips the root immediately and never enqueues its children: the admin
of the root obtains only the root, and the child organization is missing
from the scope. -/
theorem claim3_admin_root_scope_bug :
    resolveOrgScopeForUser rootAdminUser rootChildOrgs = ["org-root"] ∧
    "org-child" ∉ resolveOrgScopeForUser rootAdminUser rootChildOrgs :=
  ⟨by decide, by decide⟩

/-- C8. The authorization gates' decision for a user whose role is `owner`
is allow under every permission store, hence identical across any two
stores (in particular before and after any `setRolePermission` call): both
the task router's guard and the admin router's access gate short-circuit on
`owner` without consulting stored rows. -/
theorem claim8_owner_short_circuit (s1 s2 : PermStore) (u : User)
    (permission : String) (h : u.role = "owner") :
    taskGuard s1 u.role permission = Decision.allow ∧
    taskGuard s2 u.role permission = Decision.allow ∧
    adminAccessGuard s1 u.role = Decision.allow ∧
    adminAccessGuard s2 u.role = Decision.allow := by
  rw [h]
  exact ⟨by simp [taskGuard], by simp [taskGuard], by simp [adminAccessGuard],
    by simp [adminAccessGuard]⟩

/-- C8, witness: the empty store versus the store produced by
`setRolePermission(null, owner, tasks:delete, false)`, for an owner user
and the permission `tasks:delete`. -/
theorem claim8_owner_short_circuit_witness :
    ({ id := "u-owner", role := "owner", organization_id := "org-root"} :
      User).role = "owner" ∧
    (taskGuard [] ("owner") ("tasks:delete") = Decision.allow ∧
     taskGuard (setRolePermission [] ("rp-x") none ("owner") ("tasks:delete") false)
       ("owner") ("tasks:delete") = Decision.allow ∧
     adminAccessGuard [] ("owner") = Decision.allow ∧
     adminAccessGuard (setRolePermission [] ("rp-x") none ("owner") ("tasks:delete") false)
       ("owner") = Decision.allow) :=
  ⟨rfl, claim8_owner_short_circuit []
    (setRolePermission [] ("rp-x") none ("owner") ("tasks:delete") false)
    { id := "u-owner", role := "owner", organization_id := "org-root" }
    ("tasks:delete") rfl⟩

/-- C4. A category is listed by `listAccessibleCategoriesForRole(orgIds,
role)` exactly when it is a category row whose organization is in `orgIds`
and either no access row exists for it and it is a system category, or an
access row for it matches the given role; the resolver is a pure function
of its inputs, and an empty org-id set yields the empty list. -/
theorem claim4_category_visibility (categories : List Category)
    (access : List AccessRow) (orgIds : List String) (role : String)
    (c : Category) :
    (c ∈ listAccessibleCategoriesForRole categories access orgIds role ↔
      (c ∈ categories ∧ orgIds.contains c.organizationId = true ∧
        ((access.filter (fun a => a.categoryId = c.id) = [] ∧ c.isSystem = true) ∨
          ∃ a ∈ access, a.categoryId = c.id ∧ a.role = role))) ∧
    listAccessibleCategoriesForRole categories access [] role = [] := by
  constructor
  · rw [listAccessibleCategoriesForRole]
    by_cases he : orgIds.isEmpty
    · rw [if_pos he]
      rw [List.isEmpty_iff] at he
      subst he
      simp
    · rw [if_neg he]
      rw [List.mem_insertionSort, List.mem_filter]
      simp [categoryVisibleToRole, List.isEmpty_iff, List.any_eq_true,
        List.filter_eq_nil_iff, and_assoc]
  · rw [listAccessibleCategoriesForRole]
    simp

/-- C5. In the task-listing pipeline, a task in category `Personal` created
by user A never appears in user B's listing when B is a different user,
whatever B's role, the organization scope, the category table or the
access rows; and a Personal task appears in a user's listing only when
that user is its creator. -/
theorem claim5_personal_privacy :
    (∀ (categories : List Category) (access : List AccessRow) (a b : User)
       (orgScope : List String) (tasks : List Task) (t : Task),
       b.id ≠ a.id → t.category = "Personal" → t.createdBy = some a.id →
       t ∉ listTasksVisible categories access b orgScope tasks) ∧
    (∀ (categories : List Category) (access : List AccessRow) (u : User)
       (orgScope : List String) (tasks : List Task) (t : Task),
       t ∈ listTasksVisible categories access u orgScope tasks →
       t.category = "Personal" → t.createdBy = some u.id) := by
  have key : ∀ (categories : List Category) (access : List AccessRow) (u : User)
      (orgScope : List String) (tasks : List Task) (t : Task),
      t ∈ listTasksVisible categories access u orgScope tasks →
      t.category = "Personal" → t.createdBy = some u.id := by
    intro categories access u orgScope tasks t hmem hcat
    simp only [listTasksVisible] at hmem
    have hP : t ∈ tasks.filter (fun t =>
        if t.category = "Personal" then (t.createdBy = some u.id : Bool) else true) := by
      by_cases hrole : u.role ≠ "owner"
      · rw [if_pos hrole] at hmem
        exact (List.mem_filter.1 hmem).1
      · rw [if_neg hrole] at hmem
        exact hmem
    have hpred := (List.mem_filter.1 hP).2
    rw [if_pos hcat] at hpred
    exact of_decide_eq_true hpred
  constructor
  · intro categories access a b orgScope tasks t hne hcat hcreator hmem
    have hcb := key categories access b orgScope tasks t hmem hcat
    rw [hcreator] at hcb
    exact hne (Option.some.inj hcb).symm
  · exact key

/-- Task in the `Personal` category created by the user with id `ua`. -/
def personalTask : Task :=
  { id := "t1", organizationId := "o1", category := "Personal",
    createdBy := some ("ua") }

/-- Creator of `personalTask`. -/
def userCreator : User :=
  { id := "ua", role := "viewer", organization_id := "o1" }

/-- A different user in the same organization. -/
def userOther : User :=
  { id := "ub", role := "admin", organization_id := "o1" }

/-- C5, witness: the creator's Personal task is absent from the other
user's listing and present, as creator-owned, in the creator's own
listing. -/
theorem claim5_personal_privacy_witness :
    (userOther.id ≠ userCreator.id ∧ personalTask.category = "Personal" ∧
      personalTask.createdBy = some userCreator.id ∧
      personalTask ∉ listTasksVisible [] [] userOther ["o1"] [personalTask]) ∧
    (personalTask ∈ listTasksVisible [] [] userCreator ["o1"] [personalTask] ∧
      personalTask.createdBy = some userCreator.id) :=
  ⟨⟨by decide, by decide, by decide,
    claim5_personal_privacy.1 [] [] userCreator userOther ["o1"] [personalTask]
      personalTask (by decide) (by decide) (by decide)⟩,
   ⟨by decide,
    claim5_personal_privacy.2 [] [] userCreator ["o1"] [personalTask]
      personalTask (by decide) (by decide)⟩⟩

/-- Setting a permission row's scope key is invariant under the enabled
update performed by the upsert. -/
theorem enabled_update_preserves (role permission : String) (ex : PermRow)
    (b : Bool) :
    ∀ x : PermRow,
      matchesGlobal (if x.id = ex.id then { x with enabled := b } else x)
        role permission = matchesGlobal x role permission := by
  intro x
  by_cases h : x.id = ex.id
  · rw [if_pos h]
    cases x
    rfl
  · rw [if_neg h]

/-- After a global upsert, the global read of the same tuple returns the
written value. -/
theorem set_then_has_global (store : PermStore) (newId role permission : String)
    (b : Bool) :
    hasRolePermission (setRolePermission store newId none role permission b)
      none role permission = b := by
  rw [setRolePermission]
  cases hfind : store.find? (fun r => scopeMatches r none role permission) with
  | none =>
    have hnil : store.filter (fun r => matchesGlobal r role permission) = [] := by
      rw [List.filter_eq_nil_iff]
      intro a ha
      exact List.find?_eq_none.1 hfind a ha
    rw [hasRolePermission, List.filter_append, hnil]
    simp [matchesGlobal]
  | some ex =>
    have hfg : store.find? (fun r => matchesGlobal r role permission) = some ex :=
      hfind
    have hhead :
        (store.filter (fun r => matchesGlobal r role permission)).head? = some ex := by
      rw [← find?_eq_filter_head?]
      exact hfg
    rw [hasRolePermission, List.append_nil]
    show (match ((store.map
        (fun r => if r.id = ex.id then { r with enabled := b } else r)).filter
        (fun r => matchesGlobal r role permission)).head? with
      | some row => row.enabled
      | none => false) = b
    rw [filter_map_invariant _ _ (enabled_update_preserves role permission ex b),
      List.head?_map, hhead]
    simp

/-- A tuple with no stored global row reads as false. -/
theorem has_global_absent (store : PermStore) (role permission : String)
    (h : store.filter (fun r => scopeMatches r none role permission) = []) :
    hasRolePermission store none role permission = false := by
  have h2 : store.filter (fun r => matchesGlobal r role permission) = [] := h
  rw [hasRolePermission, h2]
  rfl

/-- A global upsert on a store holding at most one row for the tuple leaves
exactly one row for the tuple. -/
theorem set_global_count (store : PermStore) (newId role permission : String)
    (b : Bool)
    (h : (store.filter (fun r => scopeMatches r none role permission)).length ≤ 1) :
    ((setRolePermission store newId none role permission b).filter
      (fun r => scopeMatches r none role permission)).length = 1 := by
  rw [setRolePermission]
  cases hfind : store.find? (fun r => scopeMatches r none role permission) with
  | none =>
    have hnil : store.filter (fun r => scopeMatches r none role permission) = [] := by
      rw [List.filter_eq_nil_iff]
      intro a ha
      exact List.find?_eq_none.1 hfind a ha
    rw [List.filter_append, hnil]
    simp [scopeMatches]
  | some ex =>
    show ((store.map
      (fun r => if r.id = ex.id then { r with enabled := b } else r)).filter
      (fun r => scopeMatches r none role permission)).length = 1
    rw [show (fun r => scopeMatches r none role permission) =
      (fun r => matchesGlobal r role permission) from rfl]
    rw [filter_map_invariant _ _ (enabled_update_preserves role permission ex b),
      List.length_map]
    have hfg : store.find? (fun r => matchesGlobal r role permission) = some ex :=
      hfind
    have hmem : ex ∈ store.filter (fun r => matchesGlobal r role permission) := by
      rw [List.mem_filter]
      exact ⟨List.mem_of_find?_eq_some hfg,
        @List.find?_some _ (fun r => matchesGlobal r role permission) ex store hfg⟩
    have hpos : 0 < (store.filter (fun r => matchesGlobal r role permission)).length :=
      List.length_pos_of_mem hmem
    have hle : (store.filter (fun r => matchesGlobal r role permission)).length ≤ 1 := h
    omega

/-- C9. `setRolePermission` is an idempotent upsert on the
(global-scope, role, permission) key: a read of the tuple after a write
returns the written boolean; an absent tuple reads as false; a write on a
store satisfying the at-most-one-row-per-tuple invariant (which every
upsert maintains) leaves exactly one persisted row for the tuple, and so
does any chain of writes, the last written value prevailing. -/
theorem claim9_upsert_roundtrip :
    (∀ (store : PermStore) (newId role permission : String) (b : Bool),
      hasRolePermission (setRolePermission store newId none role permission b)
        none role permission = b) ∧
    (∀ (store : PermStore) (role permission : String),
      store.filter (fun r => scopeMatches r none role permission) = [] →
      hasRolePermission store none role permission = false) ∧
    (∀ (store : PermStore) (newId role permission : String) (b : Bool),
      (store.filter (fun r => scopeMatches r none role permission)).length ≤ 1 →
      ((setRolePermission store newId none role permission b).filter
        (fun r => scopeMatches r none role permission)).length = 1) ∧
    (∀ (store : PermStore) (n1 n2 role permission : String) (b1 b2 : Bool),
      (store.filter (fun r => scopeMatches r none role permission)).length ≤ 1 →
      ((setRolePermission (setRolePermission store n1 none role permission b1)
          n2 none role permission b2).filter
        (fun r => scopeMatches r none role permission)).length = 1 ∧
      hasRolePermission (setRolePermission
        (setRolePermission store n1 none role permission b1)
        n2 none role permission b2) none role permission = b2) := by
  refine ⟨set_then_has_global, has_global_absent, set_global_count, ?_⟩
  intro store n1 n2 role permission b1 b2 h
  exact ⟨set_global_count _ n2 role permission b2
      (le_of_eq (set_global_count store n1 role permission b1 h)),
    set_then_has_global _ n2 role permission b2⟩

/-- C9, witness: starting from the empty store, one write of true reads
back true, the absent tuple reads false, one row persists, and a second
write of false still leaves exactly one row, reading false. -/
theorem claim9_upsert_roundtrip_witness :
    hasRolePermission (setRolePermission [] ("rp-a") none ("qa") ("tasks:view") true)
      none ("qa") ("tasks:view") = true ∧
    (([] : PermStore).filter (fun r => scopeMatches r none ("qa") ("tasks:view")) = [] ∧
      hasRolePermission [] none ("qa") ("tasks:view") = false) ∧
    ((([] : PermStore).filter
        (fun r => scopeMatches r none ("qa") ("tasks:view"))).length ≤ 1 ∧
      ((setRolePermission [] ("rp-a") none ("qa") ("tasks:view") true).filter
        (fun r => scopeMatches r none ("qa") ("tasks:view"))).length = 1) ∧
    (((setRolePermission (setRolePermission [] ("rp-a") none ("qa") ("tasks:view") true)
        ("rp-b") none ("qa") ("tasks:view") false).filter
        (fun r => scopeMatches r none ("qa") ("tasks:view"))).length = 1 ∧
      hasRolePermission (setRolePermission
        (setRolePermission [] ("rp-a") none ("qa") ("tasks:view") true)
        ("rp-b") none ("qa") ("tasks:view") false) none ("qa") ("tasks:view") = false) :=
  ⟨claim9_upsert_roundtrip.1 [] ("rp-a") ("qa") ("tasks:view") true,
   ⟨by decide, claim9_upsert_roundtrip.2.1 [] ("qa") ("tasks:view") (by decide)⟩,
   ⟨by decide, claim9_upsert_roundtrip.2.2.1 [] ("rp-a") ("qa") ("tasks:view") true
      (by decide)⟩,
   claim9_upsert_roundtrip.2.2.2 [] ("rp-a") ("rp-b") ("qa") ("tasks:view") true false
      (by decide)⟩

theorem charListLe_total : ∀ as bs : List Char,
    (charListLe as bs || charListLe bs as) = true
  | [], bs => by simp [charListLe]
  | a :: as, [] => by simp [charListLe]
  | a :: as, b :: bs => by
    by_cases h1 : a.toNat < b.toNat
    · simp [charListLe, h1]
    · by_cases h2 : b.toNat < a.toNat
      · simp [charListLe, h1, h2]
      · have ih := charListLe_total as bs
        simp only [charListLe, if_neg h1, if_neg h2]
        exact ih

theorem charListLe_trans : ∀ as bs cs : List Char,
    charListLe as bs = true → charListLe bs cs = true → charListLe as cs = true
  | [], bs, cs => by
    intro h1 h2
    simp [charListLe]
  | a :: as, [], cs => by
    intro h1 h2
    simp [charListLe] at h1
  | a :: as, b :: bs, [] => by
    intro h1 h2
    simp [charListLe] at h2
  | a :: as, b :: bs, c :: cs => by
    intro h1 h2
    simp only [charListLe] at h1 h2 ⊢
    by_cases hab : a.toNat < b.toNat
    · by_cases hbc : b.toNat < c.toNat
      · rw [if_pos (lt_trans hab hbc)]
      · by_cases hcb : c.toNat < b.toNat
        · rw [if_neg hbc, if_pos hcb] at h2
          exact absurd h2 (by simp)
        · have hac : a.toNat < c.toNat := by omega
          rw [if_pos hac]
    · by_cases hba : b.toNat < a.toNat
      · rw [if_neg hab, if_pos hba] at h1
        exact absurd h1 (by simp)
      · by_cases hbc : b.toNat < c.toNat
        · have hac : a.toNat < c.toNat := by omega
          rw [if_pos hac]
        · by_cases hcb : c.toNat < b.toNat
          · rw [if_neg hbc, if_pos hcb] at h2
            exact absurd h2 (by simp)
          · have hac1 : ¬ a.toNat < c.toNat := by omega
            have hac2 : ¬ c.toNat < a.toNat := by omega
            rw [if_neg hab, if_neg hba] at h1
            rw [if_neg hbc, if_neg hcb] at h2
            rw [if_neg hac1, if_neg hac2]
            exact charListLe_trans as bs cs h1 h2

instance : IsTotal String (fun a b => strLe a b = true) :=
  ⟨fun a b => by
    have h := charListLe_total a.data b.data
    rcases Bool.or_eq_true_iff.1 h with h1 | h1
    · exact Or.inl h1
    · exact Or.inr h1⟩

instance : IsTrans String (fun a b => strLe a b = true) :=
  ⟨fun a b c h1 h2 => charListLe_trans a.data b.data c.data h1 h2⟩

theorem stored_after_set (access : List AccessRow) (idGen : Nat → String)
    (categoryId : String) (roles : List String) :
    (setCategoryRoleAccess access idGen categoryId roles).1.filter
        (fun a => a.categoryId = categoryId) =
      (uniqueRolesOf roles).enum.map
        (fun p => { id := idGen p.1, categoryId := categoryId, role := p.2 : AccessRow }) := by
  simp only [setCategoryRoleAccess]
  rw [List.filter_append]
  have h1 : (access.filter (fun a => a.categoryId ≠ categoryId)).filter
      (fun a => a.categoryId = categoryId) = [] := by
    rw [List.filter_eq_nil_iff]
    intro a ha
    have h := (List.mem_filter.1 ha).2
    simp at h ⊢
    exact h
  have h2 : ((uniqueRolesOf roles).enum.map
      (fun p => { id := idGen p.1, categoryId := categoryId, role := p.2 : AccessRow })).filter
      (fun a => a.categoryId = categoryId) =
      (uniqueRolesOf roles).enum.map
      (fun p => { id := idGen p.1, categoryId := categoryId, role := p.2 : AccessRow }) := by
    rw [List.filter_eq_self]
    intro a ha
    rcases List.mem_map.1 ha with ⟨p, _, hp⟩
    rw [← hp]
    simp
  rw [h1, h2, List.nil_append]

theorem returned_after_set (access : List AccessRow) (idGen : Nat → String)
    (categoryId : String) (roles : List String) :
    (setCategoryRoleAccess access idGen categoryId roles).2 =
      List.insertionSort (fun a b => strLe a b = true) (uniqueRolesOf roles) := by
  have hstored := stored_after_set access idGen categoryId roles
  show listCategoryRoleAccess (setCategoryRoleAccess access idGen categoryId roles).1
      categoryId = _
  rw [listCategoryRoleAccess, hstored, List.map_map]
  congr 1
  have : (fun a : AccessRow => a.role) ∘
      (fun p : Nat × String =>
        { id := idGen p.1, categoryId := categoryId, role := p.2 : AccessRow }) =
      Prod.snd := by
    funext p
    rfl
  rw [this, List.enum_map_snd]

theorem stored_roles_after_set (access : List AccessRow) (idGen : Nat → String)
    (categoryId : String) (roles : List String) :
    ((setCategoryRoleAccess access idGen categoryId roles).1.filter
        (fun a => a.categoryId = categoryId)).map (fun a => a.role) =
      uniqueRolesOf roles := by
  rw [stored_after_set, List.map_map]
  have hcomp : (fun a : AccessRow => a.role) ∘
      (fun p : Nat × String =>
        { id := idGen p.1, categoryId := categoryId, role := p.2 : AccessRow }) =
      Prod.snd := by
    funext p
    rfl
  rw [hcomp, List.enum_map_snd]

/-- C10. `setCategoryRoleAccess` replaces the category's whole access-row
set: the stored roles for the category afterwards are exactly the trimmed,
lowercased, non-empty, first-occurrence-deduplicated entries of the input
list, independent of the prior rows; rows of other categories are
untouched; repeating the call with the same list reproduces the same
stored role set and the same returned list; and the returned list is a
permutation of the stored roles for the category, sorted ascending. -/
theorem claim10_replace_access (access : List AccessRow) (idGen idGen2 : Nat → String)
    (categoryId : String) (roles : List String) :
    ((setCategoryRoleAccess access idGen categoryId roles).1.filter
        (fun a => a.categoryId = categoryId)).map (fun a => a.role) =
      uniqueRolesOf roles ∧
    (setCategoryRoleAccess access idGen categoryId roles).1.filter
        (fun a => a.categoryId ≠ categoryId) =
      access.filter (fun a => a.categoryId ≠ categoryId) ∧
    ((setCategoryRoleAccess (setCategoryRoleAccess access idGen categoryId roles).1
        idGen2 categoryId roles).1.filter
        (fun a => a.categoryId = categoryId)).map (fun a => a.role) =
      uniqueRolesOf roles ∧
    (setCategoryRoleAccess (setCategoryRoleAccess access idGen categoryId roles).1
        idGen2 categoryId roles).2 =
      (setCategoryRoleAccess access idGen categoryId roles).2 ∧
    (setCategoryRoleAccess access idGen categoryId roles).2.Perm
      (((setCategoryRoleAccess access idGen categoryId roles).1.filter
        (fun a => a.categoryId = categoryId)).map (fun a => a.role)) ∧
    List.Pairwise (fun a b => strLe a b = true)
      ((setCategoryRoleAccess access idGen categoryId roles).2) := by
  refine ⟨stored_roles_after_set access idGen categoryId roles, ?_,
    stored_roles_after_set _ idGen2 categoryId roles, ?_, ?_, ?_⟩
  · simp only [setCategoryRoleAccess]
    rw [List.filter_append]
    have hkept : (access.filter (fun a => a.categoryId ≠ categoryId)).filter
        (fun a => a.categoryId ≠ categoryId) =
        access.filter (fun a => a.categoryId ≠ categoryId) := by
      rw [List.filter_eq_self]
      intro a ha
      exact (List.mem_filter.1 ha).2
    have hins : ((uniqueRolesOf roles).enum.map
        (fun p => { id := idGen p.1, categoryId := categoryId,
                    role := p.2 : AccessRow })).filter
        (fun a => a.categoryId ≠ categoryId) = [] := by
      rw [List.filter_eq_nil_iff]
      intro a ha
      rcases List.mem_map.1 ha with ⟨p, _, hp⟩
      rw [← hp]
      simp
    rw [hkept, hins, List.append_nil]
  · rw [returned_after_set _ idGen2 categoryId roles,
      returned_after_set access idGen categoryId roles]
  · rw [returned_after_set access idGen categoryId roles,
      stored_roles_after_set access idGen categoryId roles]
    exact List.perm_insertionSort _ _
  · rw [returned_after_set access idGen categoryId roles]
    exact List.sorted_insertionSort _ _

/-- C6. A successful rename of a custom role updates, in one transaction,
the roles-catalog row (which afterwards bears the new name), every user
record that held the old name (none holds it afterwards; each now holds the
new name) and every dynamic-permission row that referenced the old name
(none references it afterwards; each now references the new name with its
enabled value unchanged). The `Except`-valued embedding of the transaction
returns either this complete post-state or an error leaving the pre-state
untouched, so no partially-updated state is observable. -/
theorem claim6_rename_cascade (s : DbState) (oldName newRaw : String)
    (descArg : Option (Option String)) (ex : RoleRow)
    (hfind : getRoleByName s.roles oldName = some ex)
    (hsys : ex.isSystem = false)
    (hne : jsToLower (jsTrim newRaw) ≠ "")
    (hneq : jsToLower (jsTrim newRaw) ≠ ex.name)
    (hcol : s.roles.any
      (fun r => r.id ≠ ex.id && r.name = jsToLower (jsTrim newRaw)) = false) :
    ∃ s1 ret, updateRole s oldName (some newRaw) descArg = .ok (s1, ret) ∧
      (∃ r ∈ s1.roles, r.id = ex.id ∧ r.name = jsToLower (jsTrim newRaw)) ∧
      s1.users.filter (fun u => u.role = ex.name) = [] ∧
      (∀ u ∈ s.users, u.role = ex.name →
        ∃ u1 ∈ s1.users, u1.id = u.id ∧ u1.role = jsToLower (jsTrim newRaw)) ∧
      s1.perms.filter (fun p => p.role = ex.name) = [] ∧
      (∀ p ∈ s.perms, p.role = ex.name →
        ∃ p1 ∈ s1.perms, p1.id = p.id ∧ p1.role = jsToLower (jsTrim newRaw) ∧
          p1.enabled = p.enabled) := by
  simp only [updateRole, hfind, hsys]
  set n := jsToLower (jsTrim newRaw) with hn
  rw [if_neg (by simp)]
  simp only [Option.map_some']
  have hbool : (decide (n ≠ "") && decide (n ≠ ex.name)) = true := by
    simp [hne, hneq]
  rw [hbool]
  simp only [hcol]
  rw [if_neg (by simp)]
  refine ⟨_, _, rfl, ?_, ?_, ?_, ?_, ?_⟩
  · have hexmem : ex ∈ s.roles := List.mem_of_find?_eq_some hfind
    cases descArg with
    | none =>
      refine ⟨{ id := ex.id, name := n,
                description := ex.description,
                isSystem := ex.isSystem }, ?_, rfl, rfl⟩
      refine List.mem_map.2 ⟨ex, hexmem, ?_⟩
      rw [if_pos rfl]
    | some d =>
      refine ⟨{ id := ex.id, name := n,
                description := d,
                isSystem := ex.isSystem }, ?_, rfl, rfl⟩
      refine List.mem_map.2 ⟨{ id := ex.id, name := n,
                               description := ex.description,
                               isSystem := ex.isSystem },
        List.mem_map.2 ⟨ex, hexmem, by rw [if_pos rfl]⟩, ?_⟩
      rw [if_pos rfl]
  · rw [List.filter_eq_nil_iff]
    intro u1 hu1
    rcases List.mem_map.1 hu1 with ⟨u, hu, hmapeq⟩
    by_cases hur : u.role = ex.name
    · rw [if_pos hur] at hmapeq
      rw [← hmapeq]
      simp only [decide_eq_true_eq]
      exact hneq
    · rw [if_neg hur] at hmapeq
      rw [← hmapeq]
      simp only [decide_eq_true_eq]
      exact hur
  · intro u hu hur
    refine ⟨{ id := u.id, role := n,
              organization_id := u.organization_id }, ?_, rfl, rfl⟩
    refine List.mem_map.2 ⟨u, hu, ?_⟩
    rw [if_pos hur]
  · rw [List.filter_eq_nil_iff]
    intro p1 hp1
    rcases List.mem_map.1 hp1 with ⟨p, hp, hmapeq⟩
    by_cases hpr : p.role = ex.name
    · rw [if_pos hpr] at hmapeq
      rw [← hmapeq]
      simp only [decide_eq_true_eq]
      exact hneq
    · rw [if_neg hpr] at hmapeq
      rw [← hmapeq]
      simp only [decide_eq_true_eq]
      exact hpr
  · intro p hp hpr
    refine ⟨{ id := p.id, organizationId := p.organizationId, role := n,
              permission := p.permission,
              enabled := p.enabled }, ?_, rfl, rfl, rfl⟩
    refine List.mem_map.2 ⟨p, hp, ?_⟩
    rw [if_pos hpr]

/-- Catalog/users/permissions state for the rename witness: system role
`owner`, custom role `editor` held by one user, one permission row for
`editor`. -/
def renameState : DbState :=
  { roles := [{ id := "r-owner", name := "owner",
                description := some ("Full control of the organization"),
                isSystem := true },
              { id := "r-editor", name := "editor",
                description := none, isSystem := false }],
    users := [{ id := "u1", role := "editor", organization_id := "o1" }],
    perms := [{ id := "rp1", organizationId := none, role := "editor",
                permission := "tasks:view", enabled := true }] }

/-- The custom role row renamed by the witness. -/
def editorRole : RoleRow :=
  { id := "r-editor", name := "editor", description := none, isSystem := false }

/-- C6, witness: renaming `editor` to `contributor` in `renameState`. -/
theorem claim6_rename_cascade_witness :
    getRoleByName renameState.roles ("editor") = some editorRole ∧
    editorRole.isSystem = false ∧
    jsToLower (jsTrim ("contributor")) ≠ "" ∧
    jsToLower (jsTrim ("contributor")) ≠ editorRole.name ∧
    renameState.roles.any
      (fun r => r.id ≠ editorRole.id &&
        r.name = jsToLower (jsTrim ("contributor"))) = false ∧
    (∃ s1 ret, updateRole renameState ("editor") (some ("contributor")) none =
        .ok (s1, ret) ∧
      (∃ r ∈ s1.roles, r.id = editorRole.id ∧
        r.name = jsToLower (jsTrim ("contributor"))) ∧
      s1.users.filter (fun u => u.role = editorRole.name) = [] ∧
      (∀ u ∈ renameState.users, u.role = editorRole.name →
        ∃ u1 ∈ s1.users, u1.id = u.id ∧
          u1.role = jsToLower (jsTrim ("contributor"))) ∧
      s1.perms.filter (fun p => p.role = editorRole.name) = [] ∧
      (∀ p ∈ renameState.perms, p.role = editorRole.name →
        ∃ p1 ∈ s1.perms, p1.id = p.id ∧
          p1.role = jsToLower (jsTrim ("contributor")) ∧
          p1.enabled = p.enabled)) :=
  ⟨by decide, by decide, by decide, by decide, by decide,
   claim6_rename_cascade renameState ("editor") ("contributor") none editorRole
     (by decide) (by decide) (by decide) (by decide) (by decide)⟩

/-- C7. `deleteRole`: a non-system role held by at least one user fails
with the distinct `roleInUse` signal; a role whose catalog row carries the
system flag (the seeded `owner`, `admin`, `viewer`) fails with the
`systemRole` signal; deleting an unused custom role removes its
permission rows together with its catalog row and leaves users untouched.
Both error signals are distinct from `notFound`; on either error the
embedding returns no new state, matching the source, which raises before
performing any write. -/
theorem claim7_delete_role_guards :
    (∀ (s : DbState) (name : String) (ex : RoleRow),
      getRoleByName s.roles name = some ex → ex.isSystem = false →
      0 < (s.users.filter (fun u => u.role = ex.name)).length →
      deleteRole s name = .error RoleError.roleInUse) ∧
    (∀ (s : DbState) (name : String) (ex : RoleRow),
      getRoleByName s.roles name = some ex → ex.isSystem = true →
      deleteRole s name = .error RoleError.systemRole) ∧
    (∀ (s : DbState) (name : String) (ex : RoleRow),
      getRoleByName s.roles name = some ex → ex.isSystem = false →
      (s.users.filter (fun u => u.role = ex.name)).length = 0 →
      ∃ s1, deleteRole s name = .ok s1 ∧
        s1.users = s.users ∧
        s1.perms = s.perms.filter (fun p => p.role ≠ ex.name) ∧
        s1.roles = s.roles.filter (fun r => r.id ≠ ex.id)) ∧
    (RoleError.roleInUse ≠ RoleError.notFound ∧
      RoleError.systemRole ≠ RoleError.notFound) := by
  refine ⟨?_, ?_, ?_, by decide, by decide⟩
  · intro s name ex hfind hsys husage
    simp only [deleteRole, hfind, hsys]
    rw [if_neg (by simp), if_pos husage]
  · intro s name ex hfind hsys
    simp only [deleteRole, hfind, hsys]
    rw [if_pos trivial]
  · intro s name ex hfind hsys husage
    simp only [deleteRole, hfind, hsys]
    rw [if_neg (by simp), if_neg (by omega)]
    exact ⟨_, rfl, rfl, rfl, rfl⟩

/-- State for the in-use deletion witness: custom role `editor` held by a
user, with one permission row. -/
def inUseState : DbState :=
  { roles := [{ id := "r-editor", name := "editor",
                description := none, isSystem := false }],
    users := [{ id := "u1", role := "editor", organization_id := "o1" }],
    perms := [{ id := "rp1", organizationId := none, role := "editor",
                permission := "tasks:view", enabled := true }] }

/-- State for the system-role deletion witness: the seeded `owner` row. -/
def ownerOnlyState : DbState :=
  { roles := [{ id := "r-owner", name := "owner",
                description := some ("Full control of the organization"),
                isSystem := true }],
    users := [],
    perms := [] }

/-- State for the successful deletion witness: unused custom role `editor`
with one permission row. -/
def unusedRoleState : DbState :=
  { roles := [{ id := "r-editor", name := "editor",
                description := none, isSystem := false }],
    users := [],
    perms := [{ id := "rp1", organizationId := none, role := "editor",
                permission := "tasks:view", enabled := true }] }

/-- C7, witness: the three guard outcomes at concrete states. -/
theorem claim7_delete_role_guards_witness :
    deleteRole inUseState ("editor") = .error RoleError.roleInUse ∧
    deleteRole ownerOnlyState ("owner") = .error RoleError.systemRole ∧
    (∃ s1, deleteRole unusedRoleState ("editor") = .ok s1 ∧
      s1.users = unusedRoleState.users ∧
      s1.perms = unusedRoleState.perms.filter
        (fun p => p.role ≠ ("editor" : String)) ∧
      s1.roles = unusedRoleState.roles.filter
        (fun r => r.id ≠ ("r-editor" : String))) :=
  ⟨claim7_delete_role_guards.1 inUseState ("editor")
      { id := "r-editor", name := "editor", description := none,
        isSystem := false } (by decide) (by decide) (by decide),
   claim7_delete_role_guards.2.1 ownerOnlyState ("owner")
      { id := "r-owner", name := "owner",
        description := some ("Full control of the organization"),
        isSystem := true } (by decide) (by decide),
   claim7_delete_role_guards.2.2.1 unusedRoleState ("editor")
      { id := "r-editor", name := "editor", description := none,
        isSystem := false } (by decide) (by decide) (by decide)⟩

end Rbac
